import Mathlib

/-
Verification development for the deriv-trading-bot repository.

The JavaScript sources are embedded shallowly:

* `src/src/deriv-trader.js`  — single-symbol trader   (namespace `Trader`)
* `src/unnamed/part_002`     — multi-symbol trader    (namespace `MultiTrader`)
* `src/src/deriv-api.js`     — WebSocket RPC wrapper  (namespaces `Api`, `Conn`)
* `src/src/utils/config.js`  — default configuration values

Modelling conventions:

* Prices and tick display values only matter through their final decimal
  digit, so a tick carries the digit computed by `getLastDigit` directly
  (a natural number 0..9).
* Monetary amounts (stakes, profits, balances) are rationals; the decimal
  literals of the source are exact decimal fractions.
* The event-driven control flow is modelled as a step function over an
  explicit state, consuming a list of events in arrival order (the process
  is single-threaded).  The outcome of an order-placement request is an
  environment-supplied `PlaceResult` carried on the event that triggers
  the placement.
* Observable effects (order placement requests, shutdown initiation,
  stream unsubscription, the never-taken inner branch of the predicted-LOST
  path) are recorded as `BotAction` values emitted by each step.
-/

/-- Contract type of a digit-parity bet, the two values used by the code. -/
inductive ContractType where
  | DIGITEVEN
  | DIGITODD
deriving DecidableEq, Repr

/-- Status of a contract carried on a proposal_open_contract update. -/
inductive CStatus where
  | opened
  | sold
deriving DecidableEq, Repr

/-- Result of the early outcome prediction, the strings won and lost. -/
inductive Prediction where
  | won
  | lost
deriving DecidableEq, Repr

/-- Environment-supplied outcome of a buy request: the contract id on
success, or a failure (remote rejection or timeout). -/
inductive PlaceResult where
  | ok (contractId : ℕ)
  | err
deriving DecidableEq, Repr

/-- Shape of a proposal_open_contract push payload, restricted to the
fields the trader reads.  Tick display values are represented by their
final decimal digit. -/
structure Contract where
  contract_id : ℕ
  tick_stream : List ℕ
  exit_tick : Option ℕ
  status : CStatus
  profit : ℚ
  balance_after : ℚ
  id : ℕ
deriving DecidableEq, Repr

/-- Observable side effects emitted while processing an event. -/
inductive BotAction where
  | placeOrder (ty : ContractType) (stake : ℚ) (lossCountAt : ℕ)
  | subscribeContract (contractId : ℕ)
  | simSchedule (ty : ContractType) (stake : ℚ)
  | shutdownInit
  | forget (id : ℕ)
  | deadBranch
deriving DecidableEq, Repr

/-- Test for an order-placement action. -/
def BotAction.isPlace : BotAction → Bool
  | .placeOrder _ _ _ => true
  | _ => false

/-- Session statistics, the stats object of the trader. -/
structure Stats where
  totalTrades : ℕ
  wonTrades : ℕ
  lostTrades : ℕ
  initialBalance : ℚ
  currentBalance : ℚ
  profit : ℚ
deriving DecidableEq, Repr

/-- Initial statistics of a fresh trader. -/
def initStats : Stats :=
  { totalTrades := 0, wonTrades := 0, lostTrades := 0,
    initialBalance := 0, currentBalance := 0, profit := 0 }

/-- Configuration values read by the trader, from utils/config.js.
Option none models a null configuration entry. -/
structure Config where
  maxTicks : ℕ
  martingale : List ℚ
  tradingEnabled : Bool
  maxConsecutiveLosses : Option ℕ
  maxDailyLoss : Option ℚ
deriving DecidableEq, Repr

/-- Default Martingale stake table from utils/config.js line 25. -/
def MARTINGALE_MULTIPLIERS : List ℚ :=
  [mkRat 35 100, mkRat 69 100, mkRat 139 100, mkRat 284 100,
   mkRat 58 10, mkRat 1152 100, mkRat 2351 100, mkRat 4798 100]

/-- Martingale table as the sentence of the specification lists it
(0.35, 0.69, 1.39, 2.84, 5.8, 11.52, 23.51, 47.98 rendered as exact
decimal fractions), for comparison with the configuration default. -/
def specMartingaleTable : List ℚ :=
  [mkRat 35 100, mkRat 69 100, mkRat 139 100, mkRat 284 100,
   mkRat 58 10, mkRat 1152 100, mkRat 2351 100, mkRat 4798 100]

/-- Default MAX_RECONNECT_ATTEMPTS from utils/config.js line 39. -/
def MAX_RECONNECT_ATTEMPTS : ℕ := 5

/-- Default configuration: MAX_CONSECUTIVE_DIGITS 3, the default
Martingale table, trading enabled, both safety limits null. -/
def defaultConfig : Config :=
  { maxTicks := 3, martingale := MARTINGALE_MULTIPLIERS,
    tradingEnabled := true, maxConsecutiveLosses := none,
    maxDailyLoss := none }

namespace Trader

/-- Mutable state of the single-symbol trader (deriv-trader.js
constructor).  The field predictedOutcome of the source is omitted: it is
only ever written null. -/
structure TraderState where
  consecutiveOdd : ℕ
  consecutiveEven : ℕ
  lossCount : ℕ
  ignoreTicks : Bool
  activeContractId : Option ℕ
  currentContractType : Option ContractType
  nextTradeReady : Bool
  predictionMade : Bool
  pendingContractType : Option ContractType
  stats : Stats
deriving DecidableEq, Repr

/-- Initial trader state, from the constructor of DerivTrader. -/
def initState : TraderState :=
  { consecutiveOdd := 0, consecutiveEven := 0, lossCount := 0,
    ignoreTicks := false, activeContractId := none,
    currentContractType := none, nextTradeReady := false,
    predictionMade := false, pendingContractType := none,
    stats := initStats }

/-- Embeds resetStrategy (deriv-trader.js lines 394..407): every trading
state field is reset, statistics are untouched. -/
def resetStrategy (s : TraderState) : TraderState :=
  { s with
    consecutiveOdd := 0, consecutiveEven := 0, lossCount := 0,
    ignoreTicks := false, activeContractId := none,
    currentContractType := none, nextTradeReady := false,
    predictionMade := false, pendingContractType := none }

/-- Embeds prepareNextTrade (deriv-trader.js lines 385..392): after a
loss the pending bet is the opposite of the current contract type. -/
def prepareNextTrade (s : TraderState) : TraderState :=
  let opposite :=
    if s.currentContractType = some ContractType.DIGITEVEN then
      some ContractType.DIGITODD
    else
      some ContractType.DIGITEVEN
  let s :=
    if s.currentContractType.isSome then
      { s with pendingContractType := opposite }
    else s
  { s with ignoreTicks := false }

/-- Embeds checkSafetyLimits (deriv-trader.js lines 367..383); returns
whether shutdown is initiated.  A null or zero configured limit is falsy
and disables the check, matching JavaScript truthiness. -/
def checkSafetyLimits (cfg : Config) (s : TraderState) : Bool :=
  let dailyHit :=
    match cfg.maxDailyLoss with
    | some d => decide (d ≠ 0 ∧ s.stats.profit ≤ -d)
    | none => false
  match cfg.maxConsecutiveLosses with
  | some m => if m ≠ 0 ∧ m ≤ s.lossCount then true else dailyHit
  | none => dailyHit

/-- Embeds placeTrade (deriv-trader.js lines 171..237).  The synchronous
prefix sets the flags; if the loss count has exhausted the Martingale
table the strategy is reset and no order is issued; otherwise the stake
is the table entry at lossCount.  In simulation mode an outcome draw is
scheduled instead of a buy request.  A failed buy (remote rejection or
timeout, the catch block) resets the strategy. -/
def placeTrade (cfg : Config) (s : TraderState) (ty : ContractType)
    (res : PlaceResult) : TraderState × List BotAction :=
  let s := { s with
             ignoreTicks := true, currentContractType := some ty,
             predictionMade := false, pendingContractType := none }
  if cfg.martingale.length ≤ s.lossCount then
    (resetStrategy s, [])
  else
    let stake := cfg.martingale.getD s.lossCount 0
    if cfg.tradingEnabled = false then
      (s, [BotAction.simSchedule ty stake])
    else
      match res with
      | PlaceResult.err =>
          (resetStrategy s, [BotAction.placeOrder ty stake s.lossCount])
      | PlaceResult.ok cid =>
          ({ s with
             activeContractId := some cid,
             stats := { s.stats with
                        totalTrades := s.stats.totalTrades + 1 } },
           [BotAction.placeOrder ty stake s.lossCount,
            BotAction.subscribeContract cid])

/-- Embeds the consecutive-counter update of processTick
(deriv-trader.js lines 146..155); returns the new pair
(consecutiveEven, consecutiveOdd). -/
def updateStreaks (consecutiveEven consecutiveOdd : ℕ)
    (isEven : Bool) : ℕ × ℕ :=
  if isEven then (consecutiveEven + 1, 0) else (0, consecutiveOdd + 1)

/-- Embeds processTick (deriv-trader.js lines 128..165).  The digit is
the value getLastDigit computes from the quote at its declared pip size. -/
def processTick (cfg : Config) (s : TraderState) (digit : ℕ)
    (res : PlaceResult) : TraderState × List BotAction :=
  let isEven := digit % 2 = 0
  if s.nextTradeReady ∧ s.pendingContractType.isSome then
    match s.pendingContractType with
    | some ty =>
        let r1 := placeTrade cfg s ty res
        ({ r1.1 with
           pendingContractType := none, nextTradeReady := false },
         r1.2)
    | none => (s, [])
  else if s.ignoreTicks then
    (s, [])
  else
    let p := updateStreaks s.consecutiveEven s.consecutiveOdd isEven
    let s := { s with consecutiveEven := p.1, consecutiveOdd := p.2 }
    if cfg.maxTicks ≤ s.consecutiveEven then
      placeTrade cfg s ContractType.DIGITODD res
    else if cfg.maxTicks ≤ s.consecutiveOdd then
      placeTrade cfg s ContractType.DIGITEVEN res
    else
      (s, [])

/-- Embeds predictContractStatus (deriv-trader.js lines 265..294): the
last digit comes from the exit tick display value when present, else
from the last tick of the stream; parity against the current contract
type decides won or lost. -/
def predictContractStatus (s : TraderState) (c : Contract) :
    Option Prediction :=
  if c.tick_stream = [] then none
  else
    let lastTick : Option ℕ :=
      match c.exit_tick with
      | some d => some d
      | none => c.tick_stream.getLast?
    match lastTick with
    | none => none
    | some d =>
        let isEvenTick := d % 2 = 0
        if (isEvenTick ∧ s.currentContractType = some ContractType.DIGITEVEN)
           ∨ (¬isEvenTick ∧ s.currentContractType = some ContractType.DIGITODD)
        then some Prediction.won
        else some Prediction.lost

/-- Embeds the early-prediction block of processContractUpdate
(deriv-trader.js lines 301..333), including the inner branch at lines
321..324 that re-checks predictionMade immediately after it was set; an
`BotAction.deadBranch` is emitted if that inner branch executes. -/
def predictionBlock (s : TraderState) (c : Contract) :
    TraderState × List BotAction :=
  if s.predictionMade = false ∧ c.tick_stream ≠ [] then
    match predictContractStatus s c with
    | some Prediction.lost =>
        let s := { s with lossCount := s.lossCount + 1 }
        let samePend :=
          if s.currentContractType = some ContractType.DIGITEVEN then
            some ContractType.DIGITEVEN
          else
            some ContractType.DIGITODD
        let s := { s with pendingContractType := samePend }
        let s := { s with
                   nextTradeReady := true, predictionMade := true,
                   ignoreTicks := false }
        if s.predictionMade = false then
          let s := { s with lossCount := s.lossCount + 1 }
          (prepareNextTrade s, [BotAction.deadBranch])
        else
          (s, [])
    | some Prediction.won =>
        (resetStrategy { s with predictionMade := true }, [])
    | none => (s, [])
  else (s, [])

/-- Embeds the settlement block of processContractUpdate
(deriv-trader.js lines 336..364): statistics are updated from the
settlement values, won iff profit is at least zero, then the safety
limits are checked and the contract stream is forgotten.  The loss count
is not touched here in the single-symbol variant. -/
def soldBlock (cfg : Config) (s : TraderState) (c : Contract) :
    TraderState × List BotAction :=
  if c.status = CStatus.sold then
    let stats := { s.stats with
                   currentBalance := c.balance_after,
                   profit := s.stats.profit + c.profit }
    let stats :=
      if 0 ≤ c.profit then { stats with wonTrades := stats.wonTrades + 1 }
      else { stats with lostTrades := stats.lostTrades + 1 }
    let s := { s with stats := stats }
    let shut := checkSafetyLimits cfg s
    ({ s with activeContractId := none },
     (if shut then [BotAction.shutdownInit] else []) ++ [BotAction.forget c.id])
  else (s, [])

/-- Embeds processContractUpdate (deriv-trader.js lines 296..365):
updates for a contract other than the active one are dropped, then the
prediction block and the settlement block run in sequence. -/
def processContractUpdate (cfg : Config) (s : TraderState) (c : Contract) :
    TraderState × List BotAction :=
  if s.activeContractId = some c.contract_id then
    let r1 := predictionBlock s c
    let r2 := soldBlock cfg r1.1 c
    (r2.1, r1.2 ++ r2.2)
  else (s, [])

/-- Inbound events of the single-symbol trader event loop. -/
inductive Event where
  | tick (digit : ℕ) (res : PlaceResult)
  | update (c : Contract)
deriving DecidableEq, Repr

/-- One reaction of the trader to an inbound event. -/
def step (cfg : Config) (s : TraderState) : Event → TraderState × List BotAction
  | Event.tick d r => processTick cfg s d r
  | Event.update c => processContractUpdate cfg s c

/-- Runs the trader over a list of events in arrival order, accumulating
the emitted actions. -/
def run (cfg : Config) (s : TraderState) : List Event → TraderState × List BotAction
  | [] => (s, [])
  | e :: es =>
      let r1 := step cfg s e
      let r2 := run cfg r1.1 es
      (r2.1, r1.2 ++ r2.2)

end Trader

namespace MultiTrader

/-- Per-symbol trading state of the multi-symbol trader
(part_002 initializeSymbolData, lines 107..123).  The timestamp field
lastUpdate is omitted (wall-clock time, read by nothing the claims
concern); predictedOutcome is omitted as in the single-symbol variant. -/
structure SymbolState where
  consecutiveOdd : ℕ
  consecutiveEven : ℕ
  lossCount : ℕ
  ignoreTicks : Bool
  activeContractId : Option ℕ
  currentContractType : Option ContractType
  nextTradeReady : Bool
  predictionMade : Bool
  pendingContractType : Option ContractType
  lastDigit : Option ℕ
deriving DecidableEq, Repr

/-- Per-symbol performance entry of stats.symbolPerformance. -/
structure SymbolPerf where
  trades : ℕ
  wins : ℕ
  losses : ℕ
  profit : ℚ
deriving DecidableEq, Repr

/-- State of the multi-symbol trader restricted to one traded symbol:
its symbol record, the aggregate statistics, and its performance entry.
Contract updates only ever touch the matched symbol's record, so this
restriction is faithful for per-order properties. -/
structure MState where
  sym : SymbolState
  stats : Stats
  perf : SymbolPerf
deriving DecidableEq, Repr

/-- Initial per-symbol state, from initializeSymbolData. -/
def initSymbolState : SymbolState :=
  { consecutiveOdd := 0, consecutiveEven := 0, lossCount := 0,
    ignoreTicks := false, activeContractId := none,
    currentContractType := none, nextTradeReady := false,
    predictionMade := false, pendingContractType := none,
    lastDigit := none }

/-- Initial restricted multi-symbol state. -/
def initMState : MState :=
  { sym := initSymbolState, stats := initStats,
    perf := { trades := 0, wins := 0, losses := 0, profit := 0 } }

/-- Embeds resetStrategy of the multi-symbol trader (part_002 lines
465..480) on the symbol record. -/
def resetStrategyM (d : SymbolState) : SymbolState :=
  { d with
    consecutiveOdd := 0, consecutiveEven := 0, lossCount := 0,
    ignoreTicks := false, activeContractId := none,
    currentContractType := none, nextTradeReady := false,
    predictionMade := false, pendingContractType := none }

/-- Embeds prepareNextTrade of the multi-symbol trader (part_002 lines
454..463): the pending bet is the opposite of the current contract type. -/
def prepareNextTradeM (d : SymbolState) : SymbolState :=
  let opposite :=
    if d.currentContractType = some ContractType.DIGITEVEN then
      some ContractType.DIGITODD
    else
      some ContractType.DIGITEVEN
  let d :=
    if d.currentContractType.isSome then
      { d with pendingContractType := opposite }
    else d
  { d with ignoreTicks := false }

/-- Embeds predictContractStatus of the multi-symbol trader (part_002
lines 313..344); identical logic to the single-symbol variant. -/
def predictContractStatusM (d : SymbolState) (c : Contract) :
    Option Prediction :=
  if c.tick_stream = [] then none
  else
    let lastTick : Option ℕ :=
      match c.exit_tick with
      | some dig => some dig
      | none => c.tick_stream.getLast?
    match lastTick with
    | none => none
    | some dig =>
        let isEvenTick := dig % 2 = 0
        if (isEvenTick ∧ d.currentContractType = some ContractType.DIGITEVEN)
           ∨ (¬isEvenTick ∧ d.currentContractType = some ContractType.DIGITODD)
        then some Prediction.won
        else some Prediction.lost

/-- Embeds the early-prediction block of the multi-symbol
processContractUpdate (part_002 lines 364..390); unlike the
single-symbol variant it has no inner re-check of predictionMade. -/
def predictionBlockM (d : SymbolState) (c : Contract) : SymbolState :=
  if d.predictionMade = false ∧ c.tick_stream ≠ [] then
    match predictContractStatusM d c with
    | some Prediction.lost =>
        let d := { d with lossCount := d.lossCount + 1 }
        let samePend :=
          if d.currentContractType = some ContractType.DIGITEVEN then
            some ContractType.DIGITEVEN
          else
            some ContractType.DIGITODD
        let d := { d with pendingContractType := samePend }
        { d with
          nextTradeReady := true, predictionMade := true,
          ignoreTicks := false }
    | some Prediction.won =>
        resetStrategyM { d with predictionMade := true }
    | none => d
  else d

/-- Embeds checkSafetyLimits of the multi-symbol trader (part_002 lines
432..452) restricted to the one tracked symbol. -/
def checkSafetyLimitsM (cfg : Config) (m : MState) : Bool :=
  let dailyHit :=
    match cfg.maxDailyLoss with
    | some dl => decide (dl ≠ 0 ∧ m.stats.profit ≤ -dl)
    | none => false
  match cfg.maxConsecutiveLosses with
  | some mx => if mx ≠ 0 ∧ mx ≤ m.sym.lossCount then true else dailyHit
  | none => dailyHit

/-- Embeds the settlement block of the multi-symbol processContractUpdate
(part_002 lines 393..429): statistics from the settlement values, won
iff profit is at least zero; a win resets the symbol's strategy, a loss
increments its lossCount and prepares the opposite next trade; then
safety limits are checked and the contract stream is forgotten. -/
def soldBlockM (cfg : Config) (m : MState) (c : Contract) :
    MState × List BotAction :=
  if c.status = CStatus.sold then
    let stats := { m.stats with
                   currentBalance := c.balance_after,
                   profit := m.stats.profit + c.profit }
    let perf := { m.perf with profit := m.perf.profit + c.profit }
    let m :=
      if 0 ≤ c.profit then
        { m with
          stats := { stats with wonTrades := stats.wonTrades + 1 },
          perf := { perf with wins := perf.wins + 1 },
          sym := resetStrategyM m.sym }
      else
        { m with
          stats := { stats with lostTrades := stats.lostTrades + 1 },
          perf := { perf with losses := perf.losses + 1 },
          sym := prepareNextTradeM
                   { m.sym with lossCount := m.sym.lossCount + 1 } }
    let shut := checkSafetyLimitsM cfg m
    ({ m with sym := { m.sym with activeContractId := none } },
     (if shut then [BotAction.shutdownInit] else []) ++ [BotAction.forget c.id])
  else (m, [])

/-- Embeds processContractUpdate of the multi-symbol trader (part_002
lines 346..430): the scan over symbolData reduces, for the one tracked
symbol, to matching the contract id against its activeContractId; then
the prediction block and the settlement block run in sequence. -/
def processContractUpdateM (cfg : Config) (m : MState) (c : Contract) :
    MState × List BotAction :=
  if m.sym.activeContractId = some c.contract_id then
    let m1 := { m with sym := predictionBlockM m.sym c }
    let r2 := soldBlockM cfg m1 c
    (r2.1, r2.2)
  else (m, [])

end MultiTrader

namespace Api

/-- Events driving the request-correlation layer of deriv-api.js: a call
of send (ok false models socket.send throwing, the catch at lines
171..174), an inbound correlated message for a request id (response or
correlated error payload, lines 71..96), and the firing of the
per-request timeout scheduled at lines 165..170. -/
inductive ApiEvent where
  | send (ok : Bool)
  | response (id : ℕ)
  | timeoutFire (id : ℕ)
deriving DecidableEq, Repr

/-- Correlation state of DerivAPI: the next request id (reqId, starting
at 1), the ids with a live entry in messageHandlers, and for each id the
number of times its completion handle has been resolved or rejected. -/
structure ApiState where
  nextId : ℕ
  pending : List ℕ
  invoked : ℕ → ℕ

/-- Initial correlation state of a fresh DerivAPI. -/
def initApiState : ApiState :=
  { nextId := 1, pending := [], invoked := fun _ => 0 }

/-- Records one resolution or rejection of the handler for an id. -/
def invoke (f : ℕ → ℕ) (id : ℕ) : ℕ → ℕ :=
  fun j => if j = id then f j + 1 else f j

/-- One reaction of the correlation layer to an event.  A successful
send stores a handler under the fresh id; a failed send deletes it and
rejects immediately; a correlated inbound message resolves or rejects
the handler and deletes it when one is live, and is dropped otherwise; a
firing timeout rejects and deletes the handler only when it is still
live (the has check at line 166). -/
def apiStep (s : ApiState) : ApiEvent → ApiState
  | ApiEvent.send true =>
      { s with nextId := s.nextId + 1, pending := s.nextId :: s.pending }
  | ApiEvent.send false =>
      { s with nextId := s.nextId + 1, invoked := invoke s.invoked s.nextId }
  | ApiEvent.response id =>
      if id ∈ s.pending then
        { s with pending := s.pending.erase id,
                 invoked := invoke s.invoked id }
      else s
  | ApiEvent.timeoutFire id =>
      if id ∈ s.pending then
        { s with pending := s.pending.erase id,
                 invoked := invoke s.invoked id }
      else s

/-- Runs the correlation layer over an event trace from a given state. -/
def apiRunFrom (s : ApiState) : List ApiEvent → ApiState
  | [] => s
  | e :: es => apiRunFrom (apiStep s e) es

/-- Runs the correlation layer over an event trace from the initial
state. -/
def apiRun (tr : List ApiEvent) : ApiState :=
  apiRunFrom initApiState tr

/-- Well-formedness of a trace with respect to scheduled timeouts: every
successful send schedules a timeout (line 165), and in JavaScript every
scheduled timeout eventually fires, so the firing event for the id a
successful send assigns must occur later in the trace.  The counter
argument tracks the id the next send will assign. -/
def wfTimeouts : ℕ → List ApiEvent → Bool
  | _, [] => true
  | n, ApiEvent.send true :: rest =>
      decide (ApiEvent.timeoutFire n ∈ rest) && wfTimeouts (n + 1) rest
  | n, ApiEvent.send false :: rest => wfTimeouts (n + 1) rest
  | n, ApiEvent.response _ :: rest => wfTimeouts n rest
  | n, ApiEvent.timeoutFire _ :: rest => wfTimeouts n rest

/-- Invariant of the correlation state: live ids are distinct assigned
ids whose handler has not yet been invoked; every other assigned id has
been invoked exactly once; unassigned ids have never been invoked. -/
def ApiInv (s : ApiState) : Prop :=
  s.pending.Nodup ∧ 1 ≤ s.nextId ∧
  (∀ id ∈ s.pending, 1 ≤ id ∧ id < s.nextId) ∧
  (∀ id ∈ s.pending, s.invoked id = 0) ∧
  (∀ id, 1 ≤ id → id < s.nextId → id ∉ s.pending → s.invoked id = 1) ∧
  (∀ id, id = 0 ∨ s.nextId ≤ id → s.invoked id = 0)

end Api

namespace Conn

/-- Reconnect-relevant connection state of DerivAPI. -/
structure ConnState where
  connected : Bool
  reconnectAttempts : ℕ
  maxReconnectAttempts : ℕ
deriving DecidableEq, Repr

/-- Initial connection state: zero attempts, the configured default
maximum. -/
def initConn : ConnState :=
  { connected := false, reconnectAttempts := 0,
    maxReconnectAttempts := MAX_RECONNECT_ATTEMPTS }

/-- Embeds scheduleReconnect (deriv-api.js lines 108..126): the attempt
counter is incremented, then the delay in milliseconds is the minimum of
30000 and 2 to the new counter times 1000. -/
def scheduleReconnect (s : ConnState) : ConnState × ℕ :=
  let s := { s with reconnectAttempts := s.reconnectAttempts + 1 }
  (s, min 30000 (2 ^ s.reconnectAttempts * 1000))

/-- Embeds the onclose handler (deriv-api.js lines 40..49): on an
unclean close with the attempt counter below the maximum, a reconnect is
scheduled and its delay returned; otherwise nothing is scheduled. -/
def onCloseEvent (s : ConnState) (wasClean : Bool) : ConnState × Option ℕ :=
  let s := { s with connected := false }
  if wasClean = false ∧ s.reconnectAttempts < s.maxReconnectAttempts then
    let r := scheduleReconnect s
    (r.1, some r.2)
  else (s, none)

/-- Collects the delays scheduled by a run of consecutive unclean closes
with no successful reconnect in between. -/
def closeDelays (s : ConnState) : ℕ → List ℕ
  | 0 => []
  | n + 1 =>
      let r := onCloseEvent s false
      match r.2 with
      | some d => d :: closeDelays r.1 n
      | none => closeDelays r.1 n

end Conn

/-
Concrete scenario data used by counterexamples and witnesses.
-/

/-- Single-symbol trader holding an open DIGITEVEN bet on contract 1. -/
def sEvenBet : Trader.TraderState :=
  { Trader.initState with
    activeContractId := some 1,
    currentContractType := some ContractType.DIGITEVEN }

/-- Single-symbol trader holding an open DIGITODD bet on contract 1. -/
def sOddBet : Trader.TraderState :=
  { Trader.initState with
    activeContractId := some 1,
    currentContractType := some ContractType.DIGITODD }

/-- Open-contract update for contract 1 whose last streamed digit is 3
(odd), so a DIGITEVEN bet is predicted LOST. -/
def cOddDigit : Contract :=
  { contract_id := 1, tick_stream := [3], exit_tick := none,
    status := CStatus.opened, profit := 0, balance_after := 0, id := 11 }

/-- Open-contract update for contract 1 whose last streamed digit is 2
(even), so a DIGITODD bet is predicted LOST. -/
def cEvenDigit : Contract :=
  { contract_id := 1, tick_stream := [2], exit_tick := none,
    status := CStatus.opened, profit := 0, balance_after := 0, id := 11 }

/-- Multi-symbol trader holding an open DIGITODD bet on contract 7 with
no loss accumulated yet. -/
def m0 : MultiTrader.MState :=
  { MultiTrader.initMState with
    sym := { MultiTrader.initSymbolState with
             activeContractId := some 7,
             currentContractType := some ContractType.DIGITODD } }

/-- Intermediate (not yet sold) update for contract 7 whose last
streamed digit is even, predicting the DIGITODD bet LOST. -/
def u1 : Contract :=
  { contract_id := 7, tick_stream := [2], exit_tick := none,
    status := CStatus.opened, profit := 0, balance_after := 0, id := 70 }

/-- Settlement update for contract 7: sold at a loss of 0.35. -/
def u2 : Contract :=
  { contract_id := 7, tick_stream := [2], exit_tick := none,
    status := CStatus.sold, profit := mkRat (-35) 100, balance_after := 100,
    id := 70 }

/-- Configuration with the safety limit maxConsecutiveLosses set to 5,
as in the safety-limit scenario of the specification. -/
def cfg4 : Config :=
  { defaultConfig with maxConsecutiveLosses := some 5 }

/-- Open-contract update for a given contract id whose last streamed
digit is even, predicting an outstanding DIGITODD bet LOST. -/
def mkUpd (cid : ℕ) : Trader.Event :=
  Trader.Event.update
    { contract_id := cid, tick_stream := [2], exit_tick := none,
      status := CStatus.opened, profit := 0, balance_after := 0,
      id := cid + 100 }

/-- Event trace accumulating five predicted losses without any
settlement being processed: three even ticks trigger the first DIGITODD
trade; each open-contract update predicts it LOST (raising lossCount)
and arms the fast path, and the next tick places the follow-up trade
before the settlement of the previous contract ever arrives. -/
def c4events : List Trader.Event :=
  [Trader.Event.tick 2 (PlaceResult.ok 99),
   Trader.Event.tick 4 (PlaceResult.ok 99),
   Trader.Event.tick 6 (PlaceResult.ok 1),
   mkUpd 1,
   Trader.Event.tick 0 (PlaceResult.ok 2),
   mkUpd 2,
   Trader.Event.tick 0 (PlaceResult.ok 3),
   mkUpd 3,
   Trader.Event.tick 0 (PlaceResult.ok 4),
   mkUpd 4,
   Trader.Event.tick 0 (PlaceResult.ok 5),
   mkUpd 5,
   Trader.Event.tick 0 (PlaceResult.ok 6)]

/-- Correlation-layer trace with one successful send whose response
arrives before its timeout fires. -/
def demoApiTrace : List Api.ApiEvent :=
  [Api.ApiEvent.send true, Api.ApiEvent.response 1,
   Api.ApiEvent.timeoutFire 1]

/-- Streak invariant of the single-symbol trader: the two consecutive
counters are never both non-zero. -/
def Trader.StreakInv (s : Trader.TraderState) : Prop :=
  s.consecutiveEven = 0 ∨ s.consecutiveOdd = 0

/-- Settlement update for contract 1 with profit exactly zero, used to
witness the settlement classification at the boundary. -/
def cSoldZero : Contract :=
  { contract_id := 1, tick_stream := [], exit_tick := none,
    status := CStatus.sold, profit := 0, balance_after := 100, id := 11 }

/-- Settlement update for contract 7 with profit exactly zero. -/
def uSoldZero : Contract :=
  { contract_id := 7, tick_stream := [], exit_tick := none,
    status := CStatus.sold, profit := 0, balance_after := 100, id := 70 }

/-
Theorems.
-/

/-- Claim C2: the specification states that on a predicted LOST the
pending bet is the opposite of the current contract type.  The code
instead keeps the same direction: the ternary at deriv-trader.js line
312 maps DIGITEVEN to DIGITEVEN and DIGITODD to DIGITODD, while the
sibling helper prepareNextTrade, documented as preparing the opposite
contract type, maps DIGITEVEN to DIGITODD.  This theorem evaluates the
code at the failing inputs. -/
theorem c2_prediction_pending_same_direction :
    (Trader.processContractUpdate defaultConfig sEvenBet cOddDigit).1.pendingContractType
      = some ContractType.DIGITEVEN ∧
    (Trader.processContractUpdate defaultConfig sOddBet cEvenDigit).1.pendingContractType
      = some ContractType.DIGITODD ∧
    (Trader.prepareNextTrade sEvenBet).pendingContractType
      = some ContractType.DIGITODD := by
  decide

/-- Claim C3, counterexample: after one accumulated loss, a failed
placement does not leave lossCount at 1 as claimed; the catch block
calls resetStrategy, which zeroes it. -/
theorem c3_failure_zeroes_counterexample :
    (Trader.placeTrade defaultConfig
        { Trader.initState with lossCount := 1 }
        ContractType.DIGITODD PlaceResult.err).1.lossCount = 0 ∧
    (Trader.placeTrade defaultConfig
        { Trader.initState with lossCount := 1 }
        ContractType.DIGITODD PlaceResult.err).1.lossCount ≠ 1 := by
  decide

/-- Claim C3 as amended: when order placement fails with trading
enabled, the engine performs the full strategy reset, returning to
COUNTING with lossCount set to 0 (not left at its previous value). -/
theorem c3_amended_reset_on_failure
    (cfg : Config) (s : Trader.TraderState) (ty : ContractType)
    (hen : cfg.tradingEnabled = true) :
    (Trader.placeTrade cfg s ty PlaceResult.err).1.lossCount = 0 ∧
    (Trader.placeTrade cfg s ty PlaceResult.err).1.consecutiveEven = 0 ∧
    (Trader.placeTrade cfg s ty PlaceResult.err).1.consecutiveOdd = 0 ∧
    (Trader.placeTrade cfg s ty PlaceResult.err).1.ignoreTicks = false ∧
    (Trader.placeTrade cfg s ty PlaceResult.err).1.nextTradeReady = false ∧
    (Trader.placeTrade cfg s ty PlaceResult.err).1.pendingContractType = none ∧
    (Trader.placeTrade cfg s ty PlaceResult.err).1.activeContractId = none := by
  simp only [Trader.placeTrade, hen]
  split <;> simp [Trader.resetStrategy]

/-- Witness for c3_amended_reset_on_failure at a concrete state with two
accumulated losses. -/
theorem c3_amended_reset_on_failure_witness :
    defaultConfig.tradingEnabled = true ∧
    (Trader.placeTrade defaultConfig
        { Trader.initState with lossCount := 2 }
        ContractType.DIGITEVEN PlaceResult.err).1.lossCount = 0 :=
  ⟨by decide,
   (c3_amended_reset_on_failure defaultConfig
      { Trader.initState with lossCount := 2 }
      ContractType.DIGITEVEN (by decide)).1⟩

/-- Claim C1, counterexample: in the multi-symbol trader one losing
order changes lossCount by 2, not 1.  Contract 7 is an outstanding
DIGITODD bet; the intermediate update u1 carries an even last digit, so
the early-prediction path predicts LOST and increments lossCount to 1;
the authoritative settlement u2 (sold at a loss) then increments it
again to 2 in the sold branch.  Both detection paths counted the same
losing order. -/
theorem c1_double_increment_counterexample :
    m0.sym.lossCount = 0 ∧
    (MultiTrader.processContractUpdateM defaultConfig m0 u1).1.sym.lossCount = 1 ∧
    (MultiTrader.processContractUpdateM defaultConfig
      (MultiTrader.processContractUpdateM defaultConfig m0 u1).1 u2).1.sym.lossCount = 2 := by
  decide

/-- Claim C4, counterexample: with maxConsecutiveLosses equal to 5, the
trace c4events accumulates five predicted losses and places a sixth
order while lossCount is 5, and shutdown is never initiated: the safety
check only runs when a sold update for the active contract is
processed, and the prediction fast path places the next trade (and
replaces the active contract id) before any settlement arrives. -/
theorem c4_sixth_trade_counterexample :
    ((Trader.run cfg4 Trader.initState c4events).2.filter BotAction.isPlace).length = 6 ∧
    BotAction.shutdownInit ∉ (Trader.run cfg4 Trader.initState c4events).2 ∧
    ((Trader.run cfg4 Trader.initState c4events).2.filter BotAction.isPlace).getLast?
      = some (BotAction.placeOrder ContractType.DIGITODD (mkRat 1152 100) 5) := by
  decide

/-- Claim C7: the default Martingale table equals the table the
specification lists; for lossCount below the table length a successful
placement issues exactly one buy with stake equal to the table entry at
lossCount; at or beyond the table length no request is issued and the
strategy resets with lossCount back to 0. -/
theorem c7_stake_law :
    MARTINGALE_MULTIPLIERS = specMartingaleTable ∧
    (∀ (s : Trader.TraderState) (ty : ContractType) (cid : ℕ),
      s.lossCount < MARTINGALE_MULTIPLIERS.length →
      (Trader.placeTrade defaultConfig s ty (PlaceResult.ok cid)).2 =
        [BotAction.placeOrder ty (MARTINGALE_MULTIPLIERS.getD s.lossCount 0) s.lossCount,
         BotAction.subscribeContract cid]) ∧
    (∀ (s : Trader.TraderState) (ty : ContractType) (res : PlaceResult),
      MARTINGALE_MULTIPLIERS.length ≤ s.lossCount →
      (Trader.placeTrade defaultConfig s ty res).1.lossCount = 0 ∧
      (Trader.placeTrade defaultConfig s ty res).2 = []) := by
  refine ⟨rfl, ?_, ?_⟩
  · intro s ty cid h
    have hlen : ¬ (MARTINGALE_MULTIPLIERS.length ≤ s.lossCount) :=
      Nat.not_le.mpr h
    simp [Trader.placeTrade, defaultConfig, hlen]
  · intro s ty res h
    simp [Trader.placeTrade, Trader.resetStrategy, defaultConfig, h]

/-- Witness for c7_stake_law: at three accumulated losses the stake is
the fourth table entry, 2.84; at eight losses nothing is placed and the
count resets. -/
theorem c7_stake_law_witness :
    (Trader.placeTrade defaultConfig
        { Trader.initState with lossCount := 3 }
        ContractType.DIGITODD (PlaceResult.ok 5)).2 =
      [BotAction.placeOrder ContractType.DIGITODD
         (MARTINGALE_MULTIPLIERS.getD 3 0) 3,
       BotAction.subscribeContract 5] ∧
    (Trader.placeTrade defaultConfig
        { Trader.initState with lossCount := 8 }
        ContractType.DIGITODD PlaceResult.err).1.lossCount = 0 :=
  ⟨c7_stake_law.2.1 { Trader.initState with lossCount := 3 }
     ContractType.DIGITODD 5 (by decide),
   (c7_stake_law.2.2 { Trader.initState with lossCount := 8 }
     ContractType.DIGITODD PlaceResult.err (by decide)).1⟩

/-- Claim C8: scheduleReconnect increments the attempt counter and the
scheduled delay for the resulting attempt number n is the minimum of 30
seconds and 2 to the n seconds, in milliseconds; six consecutive unclean
closes from a fresh connection schedule exactly the delays 2s, 4s, 8s,
16s, 30s, and once the counter has reached the configured maximum the
onclose handler schedules nothing further. -/
theorem c8_reconnect_backoff :
    (∀ s : Conn.ConnState,
      (Conn.scheduleReconnect s).1.reconnectAttempts = s.reconnectAttempts + 1 ∧
      (Conn.scheduleReconnect s).2 =
        min 30000 (2 ^ (s.reconnectAttempts + 1) * 1000)) ∧
    Conn.closeDelays Conn.initConn 6 = [2000, 4000, 8000, 16000, 30000] ∧
    (∀ (s : Conn.ConnState) (w : Bool),
      s.maxReconnectAttempts ≤ s.reconnectAttempts →
      (Conn.onCloseEvent s w).2 = none) := by
  refine ⟨fun s => ⟨rfl, rfl⟩, by decide, ?_⟩
  intro s w h
  simp [Conn.onCloseEvent, Nat.not_lt.mpr h]

/-- Witness for c8_reconnect_backoff at the attempt cap: with the
counter at the default maximum of 5, an unclean close schedules no
reconnect. -/
theorem c8_reconnect_backoff_witness :
    (Conn.onCloseEvent
        { connected := true, reconnectAttempts := 5,
          maxReconnectAttempts := 5 } false).2 = none :=
  c8_reconnect_backoff.2.2
    { connected := true, reconnectAttempts := 5, maxReconnectAttempts := 5 }
    false (by decide)

/-- The early-prediction block of the single-symbol trader emits no
actions: in particular the inner branch guarded by the negated
prediction flag produces nothing, because the flag was set just above. -/
theorem predictionBlock_no_actions (s : Trader.TraderState) (c : Contract) :
    (Trader.predictionBlock s c).2 = [] := by
  unfold Trader.predictionBlock
  split
  · split <;> simp
  · rfl

/-- The early-prediction block leaves the statistics untouched. -/
theorem predictionBlock_stats (s : Trader.TraderState) (c : Contract) :
    (Trader.predictionBlock s c).1.stats = s.stats := by
  unfold Trader.predictionBlock
  split
  · split <;> simp [Trader.resetStrategy]
  · rfl

/-- Every action the settlement block emits is the shutdown initiation
or the unsubscription of the settled contract. -/
theorem soldBlock_actions (cfg : Config) (s : Trader.TraderState)
    (c : Contract) :
    ∀ a ∈ (Trader.soldBlock cfg s c).2,
      a = BotAction.shutdownInit ∨ a = BotAction.forget c.id := by
  unfold Trader.soldBlock
  split
  · intro a ha
    rcases List.mem_append.mp ha with h | h
    · split at h <;> simp_all
    · simp_all
  · intro a ha
    simp at ha

/-- Claim C9: the branch of the single-symbol predicted-LOST path that
re-checks the prediction flag and would increment lossCount a second
time is unreachable — on every input the flag was unconditionally set
true just before the check, so the embedded dead-branch marker is never
emitted by processContractUpdate. -/
theorem c9_dead_branch_unreachable (cfg : Config) (s : Trader.TraderState)
    (c : Contract) :
    BotAction.deadBranch ∉ (Trader.processContractUpdate cfg s c).2 := by
  unfold Trader.processContractUpdate
  split
  · intro hmem
    rcases List.mem_append.mp hmem with h | h
    · rw [predictionBlock_no_actions] at h
      simp at h
    · rcases soldBlock_actions cfg _ c _ h with h' | h' <;> simp at h'
  · simp

/-- Claim C10: a settlement update for the active contract classifies
the trade as won exactly when the reported profit is at least zero — in
particular a profit of exactly zero increments wonTrades and never
lostTrades — and in the multi-symbol variant a winning settlement also
performs the win-path strategy reset, zeroing lossCount and clearing the
bet. -/
theorem c10_settlement_classification :
    (∀ (cfg : Config) (s : Trader.TraderState) (c : Contract),
      s.activeContractId = some c.contract_id →
      c.status = CStatus.sold →
      ((0 ≤ c.profit →
          (Trader.processContractUpdate cfg s c).1.stats.wonTrades
            = s.stats.wonTrades + 1 ∧
          (Trader.processContractUpdate cfg s c).1.stats.lostTrades
            = s.stats.lostTrades) ∧
       (c.profit < 0 →
          (Trader.processContractUpdate cfg s c).1.stats.lostTrades
            = s.stats.lostTrades + 1 ∧
          (Trader.processContractUpdate cfg s c).1.stats.wonTrades
            = s.stats.wonTrades))) ∧
    (∀ (cfg : Config) (m : MultiTrader.MState) (c : Contract),
      m.sym.activeContractId = some c.contract_id →
      c.status = CStatus.sold →
      0 ≤ c.profit →
      (MultiTrader.processContractUpdateM cfg m c).1.stats.wonTrades
        = m.stats.wonTrades + 1 ∧
      (MultiTrader.processContractUpdateM cfg m c).1.stats.lostTrades
        = m.stats.lostTrades ∧
      (MultiTrader.processContractUpdateM cfg m c).1.sym.lossCount = 0 ∧
      (MultiTrader.processContractUpdateM cfg m c).1.sym.currentContractType
        = none) := by
  constructor
  · intro cfg s c hid hsold
    constructor
    · intro hp
      simp [Trader.processContractUpdate, hid, Trader.soldBlock, hsold, hp,
            predictionBlock_stats]
    · intro hp
      have hnp : ¬ (0 ≤ c.profit) := not_le.mpr hp
      simp [Trader.processContractUpdate, hid, Trader.soldBlock, hsold, hnp,
            predictionBlock_stats]
  · intro cfg m c hid hsold hp
    simp [MultiTrader.processContractUpdateM, hid, MultiTrader.soldBlockM,
          hsold, hp, MultiTrader.resetStrategyM]

/-- Witness for c10_settlement_classification: a zero-profit settlement
of the active contract counts as a win in both variants, and resets the
multi-symbol lossCount. -/
theorem c10_settlement_classification_witness :
    (Trader.processContractUpdate defaultConfig sEvenBet cSoldZero).1.stats.wonTrades
      = sEvenBet.stats.wonTrades + 1 ∧
    (MultiTrader.processContractUpdateM defaultConfig m0 uSoldZero).1.sym.lossCount
      = 0 :=
  ⟨((c10_settlement_classification.1 defaultConfig sEvenBet cSoldZero
      (by decide) (by decide)).1 (by decide)).1,
   ((c10_settlement_classification.2 defaultConfig m0 uSoldZero
      (by decide) (by decide) (by decide))).2.2.1⟩

/-- The loss count is unchanged by prepareNextTrade of the multi-symbol
trader. -/
theorem prepareNextTradeM_lossCount (d : MultiTrader.SymbolState) :
    (MultiTrader.prepareNextTradeM d).lossCount = d.lossCount := by
  simp only [MultiTrader.prepareNextTradeM]
  split <;> rfl

/-- Claim C1 as amended: in the multi-symbol trader each detection path
increments lossCount by one for a losing order — the early-prediction
path on the first update carrying a tick history, and the settlement
path on the sold update — so a losing order observed by both paths is
counted twice; a winning settlement resets lossCount to 0. -/
theorem c1_amended_lossCount_per_path
    (cfg : Config) (m : MultiTrader.MState) (c : Contract)
    (hid : m.sym.activeContractId = some c.contract_id) :
    (m.sym.predictionMade = false → c.tick_stream ≠ [] →
      MultiTrader.predictContractStatusM m.sym c = some Prediction.lost →
      c.status ≠ CStatus.sold →
      (MultiTrader.processContractUpdateM cfg m c).1.sym.lossCount
        = m.sym.lossCount + 1) ∧
    (m.sym.predictionMade = true → c.status = CStatus.sold → c.profit < 0 →
      (MultiTrader.processContractUpdateM cfg m c).1.sym.lossCount
        = m.sym.lossCount + 1) ∧
    (m.sym.predictionMade = false → c.tick_stream ≠ [] →
      MultiTrader.predictContractStatusM m.sym c = some Prediction.lost →
      c.status = CStatus.sold → c.profit < 0 →
      (MultiTrader.processContractUpdateM cfg m c).1.sym.lossCount
        = m.sym.lossCount + 2) ∧
    (c.status = CStatus.sold → 0 ≤ c.profit →
      (MultiTrader.processContractUpdateM cfg m c).1.sym.lossCount = 0) := by
  refine ⟨?_, ?_, ?_, ?_⟩
  · intro hm hstream hpred hnsold
    simp [MultiTrader.processContractUpdateM, hid, MultiTrader.predictionBlockM,
          hm, hstream, hpred, MultiTrader.soldBlockM, hnsold]
  · intro hm hsold hp
    have hnp : ¬ (0 ≤ c.profit) := not_le.mpr hp
    simp [MultiTrader.processContractUpdateM, hid, MultiTrader.predictionBlockM,
          hm, MultiTrader.soldBlockM, hsold, hnp, prepareNextTradeM_lossCount]
  · intro hm hstream hpred hsold hp
    have hnp : ¬ (0 ≤ c.profit) := not_le.mpr hp
    simp [MultiTrader.processContractUpdateM, hid, MultiTrader.predictionBlockM,
          hm, hstream, hpred, MultiTrader.soldBlockM, hsold, hnp,
          prepareNextTradeM_lossCount]
  · intro hsold hp
    simp [MultiTrader.processContractUpdateM, hid, MultiTrader.soldBlockM,
          hsold, hp, MultiTrader.resetStrategyM]

/-- Witness for c1_amended_lossCount_per_path: processing the sold
losing update u2 while its loss was already predicted (state after u1)
adds a second increment, and a single sold losing update with no prior
prediction adds two at once. -/
theorem c1_amended_lossCount_per_path_witness :
    (MultiTrader.processContractUpdateM defaultConfig
        (MultiTrader.processContractUpdateM defaultConfig m0 u1).1 u2).1.sym.lossCount
      = (MultiTrader.processContractUpdateM defaultConfig m0 u1).1.sym.lossCount + 1 ∧
    (MultiTrader.processContractUpdateM defaultConfig m0 u2).1.sym.lossCount
      = m0.sym.lossCount + 2 :=
  ⟨(c1_amended_lossCount_per_path defaultConfig
      (MultiTrader.processContractUpdateM defaultConfig m0 u1).1 u2
      (by decide)).2.1 (by decide) (by decide) (by decide),
   (c1_amended_lossCount_per_path defaultConfig m0 u2
      (by decide)).2.2.1 (by decide) (by decide) (by decide)
      (by decide) (by decide)⟩

/-- Every buy request that placeTrade issues carries a loss count that
is strictly below the Martingale table length: the exhaustion guard runs
before any request is sent. -/
theorem placeTrade_placeOrder_lt (cfg : Config) (s : Trader.TraderState)
    (ty bt : ContractType) (r : PlaceResult) (q : ℚ) (k : ℕ)
    (hmem : BotAction.placeOrder bt q k ∈ (Trader.placeTrade cfg s ty r).2) :
    k < cfg.martingale.length := by
  unfold Trader.placeTrade at hmem
  by_cases hg : cfg.martingale.length ≤ s.lossCount
  · simp [hg] at hmem
  · by_cases he : cfg.tradingEnabled = false
    · simp [hg, he] at hmem
    · cases r with
      | err =>
          simp [hg, he] at hmem
          omega
      | ok cid =>
          simp [hg, he] at hmem
          omega

/-- Every buy request emitted by one reaction of the single-symbol
trader carries a loss count strictly below the Martingale table length. -/
theorem step_placeOrder_lt (cfg : Config) (s : Trader.TraderState)
    (e : Trader.Event) (bt : ContractType) (q : ℚ) (k : ℕ)
    (hmem : BotAction.placeOrder bt q k ∈ (Trader.step cfg s e).2) :
    k < cfg.martingale.length := by
  cases e with
  | tick d r =>
      simp only [Trader.step, Trader.processTick] at hmem
      split at hmem
      · split at hmem
        · exact placeTrade_placeOrder_lt _ _ _ _ _ _ _ hmem
        · simp at hmem
      · split at hmem
        · simp at hmem
        · split at hmem
          · exact placeTrade_placeOrder_lt _ _ _ _ _ _ _ hmem
          · split at hmem
            · exact placeTrade_placeOrder_lt _ _ _ _ _ _ _ hmem
            · simp at hmem
  | update c =>
      simp only [Trader.step] at hmem
      unfold Trader.processContractUpdate at hmem
      split at hmem
      · rcases List.mem_append.mp hmem with h | h
        · rw [predictionBlock_no_actions] at h
          cases h
        · rcases soldBlock_actions cfg _ c _ h with h' | h' <;> simp at h'
      · simp at hmem

/-- Every buy request emitted over any event trace of the single-symbol
trader carries a loss count strictly below the Martingale table length. -/
theorem run_placeOrder_lt (cfg : Config) :
    ∀ (evs : List Trader.Event) (s : Trader.TraderState)
      (bt : ContractType) (q : ℚ) (k : ℕ),
      BotAction.placeOrder bt q k ∈ (Trader.run cfg s evs).2 →
      k < cfg.martingale.length := by
  intro evs
  induction evs with
  | nil => intro s bt q k h; simp [Trader.run] at h
  | cons e es ih =>
      intro s bt q k h
      unfold Trader.run at h
      rcases List.mem_append.mp h with h1 | h2
      · exact step_placeOrder_lt cfg s e bt q k h1
      · exact ih _ bt q k h2

/-- Claim C4 as amended: the safety check only runs while a settlement
update of the active contract is processed — processing a sold update
with the prediction already made and lossCount at or above the
configured maximum does initiate shutdown — but a trade can still be
placed with lossCount at the maximum (the prediction fast path places it
before any settlement is processed); placement is only ever refused, on
any trace, once lossCount reaches the Martingale table length. -/
theorem c4_amended_safety_timing :
    (∀ (cfg : Config) (evs : List Trader.Event) (s : Trader.TraderState)
       (bt : ContractType) (q : ℚ) (k : ℕ),
      BotAction.placeOrder bt q k ∈ (Trader.run cfg s evs).2 →
      k < cfg.martingale.length) ∧
    (∀ (cfg : Config) (s : Trader.TraderState) (c : Contract) (mx : ℕ),
      cfg.maxConsecutiveLosses = some mx → mx ≠ 0 →
      s.predictionMade = true →
      s.activeContractId = some c.contract_id →
      c.status = CStatus.sold → mx ≤ s.lossCount →
      BotAction.shutdownInit ∈ (Trader.processContractUpdate cfg s c).2) := by
  constructor
  · intro cfg evs s bt q k h
    exact run_placeOrder_lt cfg evs s bt q k h
  · intro cfg s c mx hcfg hmx hpm hid hsold hk
    simp [Trader.processContractUpdate, hid, Trader.predictionBlock, hpm,
          Trader.soldBlock, hsold, Trader.checkSafetyLimits, hcfg, hmx, hk]

/-- Witness for c4_amended_safety_timing on the concrete trace c4events
and on a settlement processed at the safety limit. -/
theorem c4_amended_safety_timing_witness :
    (BotAction.placeOrder ContractType.DIGITODD (mkRat 1152 100) 5
        ∈ (Trader.run cfg4 Trader.initState c4events).2 →
      5 < cfg4.martingale.length) ∧
    BotAction.shutdownInit ∈
      (Trader.processContractUpdate cfg4
        { sOddBet with lossCount := 5, predictionMade := true }
        { u2 with contract_id := 1 }).2 :=
  ⟨c4_amended_safety_timing.1 cfg4 c4events Trader.initState
     ContractType.DIGITODD (mkRat 1152 100) 5,
   c4_amended_safety_timing.2 cfg4
     { sOddBet with lossCount := 5, predictionMade := true }
     { u2 with contract_id := 1 } 5
     (by decide) (by decide) (by decide) (by decide) (by decide) (by decide)⟩

/-- A call of placeTrade either leaves the consecutive counters exactly
as they were or zeroes both of them (via resetStrategy). -/
theorem placeTrade_streaks (cfg : Config) (s : Trader.TraderState)
    (ty : ContractType) (r : PlaceResult) :
    ((Trader.placeTrade cfg s ty r).1.consecutiveEven = s.consecutiveEven ∧
     (Trader.placeTrade cfg s ty r).1.consecutiveOdd = s.consecutiveOdd) ∨
    ((Trader.placeTrade cfg s ty r).1.consecutiveEven = 0 ∧
     (Trader.placeTrade cfg s ty r).1.consecutiveOdd = 0) := by
  by_cases hg : cfg.martingale.length ≤ s.lossCount
  · right
    simp [Trader.placeTrade, hg, Trader.resetStrategy]
  · by_cases he : cfg.tradingEnabled = false
    · left
      simp [Trader.placeTrade, hg, he]
    · cases r with
      | err =>
          right
          simp [Trader.placeTrade, hg, he, Trader.resetStrategy]
      | ok cid =>
          left
          simp [Trader.placeTrade, hg, he]

/-- The early-prediction block either leaves the consecutive counters
exactly as they were or zeroes both of them. -/
theorem predictionBlock_streaks (s : Trader.TraderState) (c : Contract) :
    ((Trader.predictionBlock s c).1.consecutiveEven = s.consecutiveEven ∧
     (Trader.predictionBlock s c).1.consecutiveOdd = s.consecutiveOdd) ∨
    ((Trader.predictionBlock s c).1.consecutiveEven = 0 ∧
     (Trader.predictionBlock s c).1.consecutiveOdd = 0) := by
  by_cases hcond : s.predictionMade = false ∧ c.tick_stream ≠ []
  · cases hp : Trader.predictContractStatus s c with
    | none =>
        left
        simp [Trader.predictionBlock, hcond, hp]
    | some pr =>
        cases pr with
        | lost =>
            left
            simp [Trader.predictionBlock, hcond, hp]
        | won =>
            right
            simp [Trader.predictionBlock, hcond, hp, Trader.resetStrategy]
  · left
    simp [Trader.predictionBlock, hcond]

/-- The settlement block never changes the consecutive counters. -/
theorem soldBlock_streaks (cfg : Config) (s : Trader.TraderState)
    (c : Contract) :
    (Trader.soldBlock cfg s c).1.consecutiveEven = s.consecutiveEven ∧
    (Trader.soldBlock cfg s c).1.consecutiveOdd = s.consecutiveOdd := by
  by_cases hs : c.status = CStatus.sold
  · constructor <;> by_cases hp : (0:ℚ) ≤ c.profit <;>
      simp [Trader.soldBlock, hs, hp]
  · constructor <;> simp [Trader.soldBlock, hs]

/-- A call of placeTrade preserves the streak invariant. -/
theorem placeTrade_streakInv (cfg : Config) (s : Trader.TraderState)
    (ty : ContractType) (r : PlaceResult) (h : Trader.StreakInv s) :
    Trader.StreakInv (Trader.placeTrade cfg s ty r).1 := by
  rcases placeTrade_streaks cfg s ty r with ⟨he, ho⟩ | ⟨he, ho⟩
  · rcases h with h | h
    · exact Or.inl (he.trans h)
    · exact Or.inr (ho.trans h)
  · exact Or.inl he

/-- One reaction of the single-symbol trader preserves the streak
invariant. -/
theorem step_streakInv (cfg : Config) (s : Trader.TraderState)
    (e : Trader.Event) (h : Trader.StreakInv s) :
    Trader.StreakInv (Trader.step cfg s e).1 := by
  cases e with
  | tick d r =>
      simp only [Trader.step, Trader.processTick]
      split
      · split
        · exact placeTrade_streakInv cfg _ _ r h
        · exact h
      · split
        · exact h
        · split
          · exact placeTrade_streakInv cfg _ _ r (by
              by_cases hev : d % 2 = 0 <;>
                simp [Trader.StreakInv, Trader.updateStreaks, hev])
          · split
            · exact placeTrade_streakInv cfg _ _ r (by
                by_cases hev : d % 2 = 0 <;>
                  simp [Trader.StreakInv, Trader.updateStreaks, hev])
            · by_cases hev : d % 2 = 0 <;>
                simp [Trader.StreakInv, Trader.updateStreaks, hev]
  | update c =>
      simp only [Trader.step, Trader.processContractUpdate]
      split
      · have hs := soldBlock_streaks cfg (Trader.predictionBlock s c).1 c
        rcases predictionBlock_streaks s c with ⟨he, ho⟩ | ⟨he, ho⟩
        · rcases h with h | h
          · exact Or.inl (by rw [hs.1, he]; exact h)
          · exact Or.inr (by rw [hs.2, ho]; exact h)
        · exact Or.inl (by rw [hs.1, he])
      · exact h

/-- The streak invariant holds after running the single-symbol trader
over any event trace from any state satisfying it. -/
theorem run_streakInv (cfg : Config) :
    ∀ (evs : List Trader.Event) (s : Trader.TraderState),
      Trader.StreakInv s → Trader.StreakInv (Trader.run cfg s evs).1 := by
  intro evs
  induction evs with
  | nil => intro s h; exact h
  | cons e es ih =>
      intro s h
      exact ih _ (step_streakInv cfg s e h)

/-- Claim C6: over every event trace from the initial state the even and
odd streak counters are never both non-zero, and the per-tick counter
update of the counting path increments the streak of the tick's parity
while zeroing the other — so a tick of the tracked parity extends its
streak and a tick of the opposite parity starts a new streak of exactly
1 on the new parity. -/
theorem c6_streak_invariant :
    (∀ (cfg : Config) (evs : List Trader.Event),
      Trader.StreakInv (Trader.run cfg Trader.initState evs).1) ∧
    (∀ e o : ℕ,
      Trader.updateStreaks e o true = (e + 1, 0) ∧
      Trader.updateStreaks e o false = (0, o + 1)) ∧
    (∀ e : ℕ, Trader.updateStreaks e 0 false = (0, 1)) ∧
    (∀ o : ℕ, Trader.updateStreaks 0 o true = (1, 0)) := by
  refine ⟨?_, ?_, ?_, ?_⟩
  · intro cfg evs
    exact run_streakInv cfg evs Trader.initState (Or.inl rfl)
  · intro e o
    exact ⟨rfl, rfl⟩
  · intro e
    rfl
  · intro o
    rfl

/-- The initial correlation state satisfies the correlation invariant. -/
theorem initApiState_inv : Api.ApiInv Api.initApiState := by
  refine ⟨List.nodup_nil, le_refl 1, ?_, ?_, ?_, ?_⟩
  · intro id hid
    cases hid
  · intro id hid
    cases hid
  · intro id h1 h2 _
    have hlt : id < 1 := h2
    omega
  · intro id _
    rfl

/-- Completing a live handler (by response or by timeout) preserves the
correlation invariant; the guard makes the operation a no-op when the
handler is no longer live. -/
theorem completeStep_inv (s : Api.ApiState) (id0 : ℕ) (h : Api.ApiInv s) :
    Api.ApiInv (if id0 ∈ s.pending then
      { s with pending := s.pending.erase id0,
               invoked := Api.invoke s.invoked id0 }
      else s) := by
  obtain ⟨hnd, hone, hrange, hzero, hdone, hout⟩ := h
  by_cases hin : id0 ∈ s.pending
  · rw [if_pos hin]
    have hid0pos : 1 ≤ id0 := (hrange id0 hin).1
    have hid0lt : id0 < s.nextId := (hrange id0 hin).2
    refine ⟨hnd.erase id0, hone, ?_, ?_, ?_, ?_⟩
    · show ∀ id ∈ s.pending.erase id0, 1 ≤ id ∧ id < s.nextId
      intro id hid
      exact hrange id (List.mem_of_mem_erase hid)
    · show ∀ id ∈ s.pending.erase id0, Api.invoke s.invoked id0 id = 0
      intro id hid
      obtain ⟨hne, hmem⟩ := hnd.mem_erase_iff.mp hid
      simp only [Api.invoke, if_neg hne]
      exact hzero id hmem
    · show ∀ id, 1 ≤ id → id < s.nextId → id ∉ s.pending.erase id0 →
        Api.invoke s.invoked id0 id = 1
      intro id h1 h2 h3
      by_cases he : id = id0
      · subst he
        simp [Api.invoke, hzero id hin]
      · have hnp : id ∉ s.pending := fun hm => h3 (hnd.mem_erase_iff.mpr ⟨he, hm⟩)
        simp only [Api.invoke, if_neg he]
        exact hdone id h1 h2 hnp
    · show ∀ id, id = 0 ∨ s.nextId ≤ id → Api.invoke s.invoked id0 id = 0
      intro id hcase
      have hne : id ≠ id0 := by omega
      simp only [Api.invoke, if_neg hne]
      exact hout id hcase
  · rw [if_neg hin]
    exact ⟨hnd, hone, hrange, hzero, hdone, hout⟩

/-- One event of the correlation layer preserves the correlation
invariant. -/
theorem apiStep_inv (s : Api.ApiState) (e : Api.ApiEvent)
    (h : Api.ApiInv s) : Api.ApiInv (Api.apiStep s e) := by
  obtain ⟨hnd, hone, hrange, hzero, hdone, hout⟩ := h
  cases e with
  | send ok =>
      cases ok with
      | true =>
          refine ⟨?_, ?_, ?_, ?_, ?_, ?_⟩
          · show (s.nextId :: s.pending).Nodup
            refine List.nodup_cons.mpr ⟨?_, hnd⟩
            intro hmem
            exact absurd (hrange _ hmem).2 (lt_irrefl _)
          · show 1 ≤ s.nextId + 1
            omega
          · show ∀ id ∈ s.nextId :: s.pending, 1 ≤ id ∧ id < s.nextId + 1
            intro id hid
            rcases List.mem_cons.mp hid with he | hm
            · subst he
              exact ⟨hone, Nat.lt_succ_self _⟩
            · obtain ⟨h1, h2⟩ := hrange id hm
              exact ⟨h1, Nat.lt_succ_of_lt h2⟩
          · show ∀ id ∈ s.nextId :: s.pending, s.invoked id = 0
            intro id hid
            rcases List.mem_cons.mp hid with he | hm
            · subst he
              exact hout _ (Or.inr (le_refl _))
            · exact hzero id hm
          · show ∀ id, 1 ≤ id → id < s.nextId + 1 → id ∉ s.nextId :: s.pending →
              s.invoked id = 1
            intro id h1 h2 h3
            have hne : id ≠ s.nextId := fun he => h3 (by rw [he]; exact List.mem_cons_self _ _)
            have hnp : id ∉ s.pending := fun hm => h3 (List.mem_cons_of_mem _ hm)
            exact hdone id h1 (by omega) hnp
          · show ∀ id, id = 0 ∨ s.nextId + 1 ≤ id → s.invoked id = 0
            intro id hcase
            refine hout id ?_
            rcases hcase with h0 | hge
            · exact Or.inl h0
            · exact Or.inr (by omega)
      | false =>
          refine ⟨hnd, ?_, ?_, ?_, ?_, ?_⟩
          · show 1 ≤ s.nextId + 1
            omega
          · show ∀ id ∈ s.pending, 1 ≤ id ∧ id < s.nextId + 1
            intro id hid
            obtain ⟨h1, h2⟩ := hrange id hid
            exact ⟨h1, Nat.lt_succ_of_lt h2⟩
          · show ∀ id ∈ s.pending, Api.invoke s.invoked s.nextId id = 0
            intro id hid
            have hne : id ≠ s.nextId := by
              have := (hrange id hid).2
              omega
            simp only [Api.invoke, if_neg hne]
            exact hzero id hid
          · show ∀ id, 1 ≤ id → id < s.nextId + 1 → id ∉ s.pending →
              Api.invoke s.invoked s.nextId id = 1
            intro id h1 h2 h3
            by_cases he : id = s.nextId
            · subst he
              simp [Api.invoke, hout _ (Or.inr (le_refl _))]
            · simp only [Api.invoke, if_neg he]
              exact hdone id h1 (by omega) h3
          · show ∀ id, id = 0 ∨ s.nextId + 1 ≤ id → Api.invoke s.invoked s.nextId id = 0
            intro id hcase
            have hne : id ≠ s.nextId := by omega
            simp only [Api.invoke, if_neg hne]
            refine hout id ?_
            rcases hcase with h0 | hge
            · exact Or.inl h0
            · exact Or.inr (by omega)
  | response id0 =>
      exact completeStep_inv s id0 ⟨hnd, hone, hrange, hzero, hdone, hout⟩
  | timeoutFire id0 =>
      exact completeStep_inv s id0 ⟨hnd, hone, hrange, hzero, hdone, hout⟩

/-- Running the correlation layer preserves the correlation invariant. -/
theorem apiRunFrom_inv :
    ∀ (tr : List Api.ApiEvent) (s : Api.ApiState),
      Api.ApiInv s → Api.ApiInv (Api.apiRunFrom s tr) := by
  intro tr
  induction tr with
  | nil => intro s h; exact h
  | cons e rest ih =>
      intro s h
      exact ih _ (apiStep_inv s e h)

/-- Under the correlation invariant no handler has ever completed more
than once. -/
theorem ApiInv_invoked_le_one (s : Api.ApiState) (h : Api.ApiInv s)
    (id : ℕ) : s.invoked id ≤ 1 := by
  obtain ⟨_, _, _, hzero, hdone, hout⟩ := h
  by_cases hp : id ∈ s.pending
  · rw [hzero id hp]
    omega
  · by_cases ha : 1 ≤ id ∧ id < s.nextId
    · rw [hdone id ha.1 ha.2 hp]
    · rw [hout id (by omega)]
      omega

/-- If every live handler has its timeout event still ahead in the
trace, and every successful send in the trace is followed by its timeout
event, then at the end of the trace no handler is live: each has been
completed and removed by its matching response or by its timeout. -/
theorem apiRunFrom_pending_empty :
    ∀ (tr : List Api.ApiEvent) (s : Api.ApiState),
      Api.ApiInv s →
      (∀ id ∈ s.pending, Api.ApiEvent.timeoutFire id ∈ tr) →
      Api.wfTimeouts s.nextId tr = true →
      (Api.apiRunFrom s tr).pending = [] := by
  intro tr
  induction tr with
  | nil =>
      intro s _ hto _
      cases hp : s.pending with
      | nil => simp [Api.apiRunFrom, hp]
      | cons a l =>
          have hmem := hto a (by rw [hp]; exact List.mem_cons_self _ _)
          cases hmem
  | cons e rest ih =>
      intro s hinv hto hwf
      cases e with
      | send ok =>
          cases ok with
          | true =>
              simp only [Api.wfTimeouts, Bool.and_eq_true,
                         decide_eq_true_eq] at hwf
              refine ih (Api.apiStep s (Api.ApiEvent.send true))
                (apiStep_inv s _ hinv) ?_ ?_
              · show ∀ id ∈ s.nextId :: s.pending,
                  Api.ApiEvent.timeoutFire id ∈ rest
                intro id hid
                rcases List.mem_cons.mp hid with he | hm
                · subst he
                  exact hwf.1
                · rcases List.mem_cons.mp (hto id hm) with he2 | hm2
                  · cases he2
                  · exact hm2
              · show Api.wfTimeouts (s.nextId + 1) rest = true
                exact hwf.2
          | false =>
              simp only [Api.wfTimeouts] at hwf
              refine ih (Api.apiStep s (Api.ApiEvent.send false))
                (apiStep_inv s _ hinv) ?_ ?_
              · show ∀ id ∈ s.pending, Api.ApiEvent.timeoutFire id ∈ rest
                intro id hm
                rcases List.mem_cons.mp (hto id hm) with he2 | hm2
                · cases he2
                · exact hm2
              · show Api.wfTimeouts (s.nextId + 1) rest = true
                exact hwf
      | response rid =>
          simp only [Api.wfTimeouts] at hwf
          have hnx : (Api.apiStep s (Api.ApiEvent.response rid)).nextId
              = s.nextId := by
            simp only [Api.apiStep]
            split <;> rfl
          refine ih (Api.apiStep s (Api.ApiEvent.response rid))
            (apiStep_inv s _ hinv) ?_ ?_
          · intro id hid
            have hmem : id ∈ s.pending := by
              by_cases hin : rid ∈ s.pending
              · simp only [Api.apiStep, if_pos hin] at hid
                exact List.mem_of_mem_erase hid
              · simp only [Api.apiStep, if_neg hin] at hid
                exact hid
            rcases List.mem_cons.mp (hto id hmem) with he2 | hm2
            · cases he2
            · exact hm2
          · rw [hnx]
            exact hwf
      | timeoutFire tid =>
          simp only [Api.wfTimeouts] at hwf
          have hnx : (Api.apiStep s (Api.ApiEvent.timeoutFire tid)).nextId
              = s.nextId := by
            simp only [Api.apiStep]
            split <;> rfl
          refine ih (Api.apiStep s (Api.ApiEvent.timeoutFire tid))
            (apiStep_inv s _ hinv) ?_ ?_
          · intro id hid
            by_cases hin : tid ∈ s.pending
            · simp only [Api.apiStep, if_pos hin] at hid
              obtain ⟨hne, hmem⟩ := hinv.1.mem_erase_iff.mp hid
              rcases List.mem_cons.mp (hto id hmem) with he2 | hm2
              · exact absurd (by injection he2) hne
              · exact hm2
            · simp only [Api.apiStep, if_neg hin] at hid
              rcases List.mem_cons.mp (hto id hid) with he2 | hm2
              · have : id = tid := by injection he2
                exact absurd (this ▸ hid) hin
              · exact hm2
          · rw [hnx]
            exact hwf

/-- Claim C5: for every correlation id the stored handler is resolved or
rejected at most once over every event trace; and over every trace in
which each successful send is eventually followed by the firing of the
timeout it schedules, every assigned id has been completed exactly once
and removed from the correlation table by the end — completed by the
matching response or by the timeout, never both, and never leaked. -/
theorem c5_correlation_exactly_once :
    (∀ (tr : List Api.ApiEvent) (id : ℕ), (Api.apiRun tr).invoked id ≤ 1) ∧
    (∀ tr : List Api.ApiEvent, Api.wfTimeouts 1 tr = true →
      (Api.apiRun tr).pending = [] ∧
      ∀ id : ℕ, 1 ≤ id → id < (Api.apiRun tr).nextId →
        (Api.apiRun tr).invoked id = 1) := by
  constructor
  · intro tr id
    exact ApiInv_invoked_le_one _ (apiRunFrom_inv tr _ initApiState_inv) id
  · intro tr hwf
    have hinv := apiRunFrom_inv tr _ initApiState_inv
    have hempty : (Api.apiRun tr).pending = [] := by
      refine apiRunFrom_pending_empty tr Api.initApiState initApiState_inv
        ?_ hwf
      intro id hid
      cases hid
    refine ⟨hempty, ?_⟩
    intro id h1 h2
    obtain ⟨_, _, _, _, hdone, _⟩ := hinv
    refine hdone id h1 h2 ?_
    intro hm
    have hm2 : id ∈ (Api.apiRun tr).pending := hm
    rw [hempty] at hm2
    cases hm2

/-- Witness for c5_correlation_exactly_once on the concrete trace
demoApiTrace: the lone assigned id 1 is completed exactly once (by its
response; the later timeout finds no live handler) and the correlation
table ends empty. -/
theorem c5_correlation_exactly_once_witness :
    Api.wfTimeouts 1 demoApiTrace = true ∧
    (Api.apiRun demoApiTrace).pending = [] ∧
    (Api.apiRun demoApiTrace).invoked 1 = 1 :=
  ⟨by decide,
   (c5_correlation_exactly_once.2 demoApiTrace (by decide)).1,
   (c5_correlation_exactly_once.2 demoApiTrace (by decide)).2 1
     (by decide) (by decide)⟩
